import Mathlib

/-!
# Controller core of k8s-controller-custom-resource

A shallow embedding of `controller.go` and `main.go`.

* The work queue (`workqueue.RateLimitingInterface`), the informer
  (`cache.SharedIndexInformer`) and the helper functions of package `cache`
  are collaborators that live outside the repository.  The controller code is
  embedded over an arbitrary implementation of them: the queue is a record of
  state transformers on a queue state `σ`, the helper functions are the fields
  of `CachePkg`.
* Every function returns, next to its Go result, the list of calls it made on
  its collaborators (`Event`), in program order.  Logging through `klog` is
  not recorded.
* A Go call can return, panic, or never return (a blocking call whose
  condition never comes true); `Outcome` keeps the three apart.  A deferred
  call runs when the function returns and when it panics.
-/

namespace K8sController

/-- A Go `interface{}` value as it travels through the work queue: the `nil`
interface, a `string`, or a value of any other dynamic type. -/
inductive Item where
  | nil
  | str (s : String)
  | other (tag : Nat)
deriving DecidableEq, Repr

/-- How a Go call ends. `blocked` is a call that never returns. -/
inductive Outcome (α : Type) where
  | returned (value : α)
  | panicked
  | blocked
deriving DecidableEq, Repr

/-- The calls the controller makes on its collaborators. -/
inductive Event where
  | queueAdd (item : Item)
  | queueAddRateLimited (item : Item)
  | queueForget (item : Item)
  | queueGet
  | queueDone (item : Item)
  | queueShutDown
  | syncHandlerCall (key : String)
  | goInformerRun
  | waitForCacheSync (synced : Bool)
  | goWorker
  | recvStopCh
deriving DecidableEq, Repr

/-- Whether an event is a call on the work queue. -/
def Event.isQueueOp : Event → Bool
  | .queueAdd _ => true
  | .queueAddRateLimited _ => true
  | .queueForget _ => true
  | .queueGet => true
  | .queueDone _ => true
  | .queueShutDown => true
  | _ => false

/-- Whether an event is a `Forget` or an `AddRateLimited` call. -/
def Event.isForgetOrAddRateLimited : Event → Bool
  | .queueAddRateLimited _ => true
  | .queueForget _ => true
  | _ => false

/-- Whether an event is a `Done` call. -/
def Event.isDone : Event → Bool
  | .queueDone _ => true
  | _ => false

/-- The interface `workqueue.RateLimitingInterface`, as far as `controller.go`
calls it. `Get` answers `none` when the call never returns, and otherwise the
pair `(item, shutdown)` with the next queue state. -/
structure RateLimitingInterface (σ : Type) where
  Add : Item → σ → σ
  AddRateLimited : Item → σ → σ
  Forget : Item → σ → σ
  Get : σ → Option ((Item × Bool) × σ)
  Done : Item → σ → σ
  ShutDown : σ → σ

/-- Package `workqueue`: the queue operations and the state of the queue that
`NewRateLimitingQueue(DefaultControllerRateLimiter())` creates. -/
structure WorkqueuePkg (σ : Type) where
  ops : RateLimitingInterface σ
  NewRateLimitingQueue : σ

/-- The functions of package `cache` that `controller.go` calls on objects and
keys, and the dynamic type test `obj.(runtime.Object)`. A Go result
`(v, err)` is an `Except`. -/
structure CachePkg (Obj : Type) where
  MetaNamespaceKeyFunc : Obj → Except String String
  SplitMetaNamespaceKey : String → Except String (String × String)
  isRuntimeObject : Obj → Bool

/-- The struct `cache.ResourceEventHandlerFuncs`: three callbacks, each of
which may be left unset (Go `nil`). A callback acts on the queue state and
reports the queue calls it made. -/
structure ResourceEventHandlerFuncs (σ Obj : Type) where
  AddFunc : Option (Obj → σ → σ × List Event)
  UpdateFunc : Option (Obj → Obj → σ → σ × List Event)
  DeleteFunc : Option (Obj → σ → σ × List Event)

/-- Method `OnAdd`: calls `AddFunc` when it is set. -/
def ResourceEventHandlerFuncs.OnAdd {σ Obj : Type} (r : ResourceEventHandlerFuncs σ Obj)
    (obj : Obj) (q : σ) : σ × List Event :=
  match r.AddFunc with
  | some f => f obj q
  | none => (q, [])

/-- Method `OnUpdate`: calls `UpdateFunc` when it is set. -/
def ResourceEventHandlerFuncs.OnUpdate {σ Obj : Type} (r : ResourceEventHandlerFuncs σ Obj)
    (oldObj newObj : Obj) (q : σ) : σ × List Event :=
  match r.UpdateFunc with
  | some f => f oldObj newObj q
  | none => (q, [])

/-- Method `OnDelete`: calls `DeleteFunc` when it is set. -/
def ResourceEventHandlerFuncs.OnDelete {σ Obj : Type} (r : ResourceEventHandlerFuncs σ Obj)
    (obj : Obj) (q : σ) : σ × List Event :=
  match r.DeleteFunc with
  | some f => f obj q
  | none => (q, [])

/-- The three kinds of notification an informer delivers to its handlers. -/
inductive Notification (Obj : Type) where
  | added (obj : Obj)
  | updated (oldObj newObj : Obj)
  | deleted (obj : Obj)

/-- Delivery of one notification to one handler. -/
def ResourceEventHandlerFuncs.deliver {σ Obj : Type} (r : ResourceEventHandlerFuncs σ Obj)
    (n : Notification Obj) (q : σ) : σ × List Event :=
  match n with
  | .added obj => r.OnAdd obj q
  | .updated oldObj newObj => r.OnUpdate oldObj newObj q
  | .deleted obj => r.OnDelete obj q

/-- The interface `cache.SharedIndexInformer`, as far as `controller.go` uses
it: the handlers registered so far, and the answer of
`GetIndexer().GetByKey(key)`, where `(obj, exists, err)` is
`Except.error err`, `Except.ok none` (absent) or `Except.ok (some obj)`. -/
structure SharedIndexInformer (σ Obj : Type) where
  handlers : List (ResourceEventHandlerFuncs σ Obj)
  GetByKey : String → Except String (Option Obj)

/-- Method `AddEventHandler`: registers one more handler. -/
def SharedIndexInformer.AddEventHandler {σ Obj : Type} (inf : SharedIndexInformer σ Obj)
    (h : ResourceEventHandlerFuncs σ Obj) : SharedIndexInformer σ Obj :=
  { inf with handlers := inf.handlers ++ [h] }

/-- A `kubernetes.Interface` value. The controller stores it and never uses
it. -/
structure Clientset where
  id : Nat
deriving DecidableEq, Repr

/-- The struct `Controller`. Its `informer` field is never the nil interface:
the only constructor of the struct, `NewController`, calls a method on the
informer before it returns. -/
structure Controller (σ Obj : Type) where
  clientset : Clientset
  queue : RateLimitingInterface σ
  informer : SharedIndexInformer σ Obj

/-- The result of a function that acts on the work queue: how the call ended,
the queue state it left, and the calls it made, in order. -/
structure Step (σ α : Type) where
  outcome : Outcome α
  queue : σ
  events : List Event

section Code

variable {σ Obj : Type}

/-- The handler literal of `NewController` (controller.go, lines 28 to 35):
only `AddFunc` is set. It extracts the key and, when that succeeds, calls
`queue.Add(key)`. -/
def NewController.eventHandler (wq : WorkqueuePkg σ) (cache : CachePkg Obj) :
    ResourceEventHandlerFuncs σ Obj :=
  { AddFunc := some (fun obj q =>
      match cache.MetaNamespaceKeyFunc obj with
      | .ok key => (wq.ops.Add (Item.str key) q, [Event.queueAdd (Item.str key)])
      | .error _ => (q, []))
    UpdateFunc := none
    DeleteFunc := none }

/-- Function `NewController` (controller.go, lines 19 to 38). The informer
argument is an interface value and may be nil (`none`); the method call
`informer.AddEventHandler` on a nil interface panics. The result is the
controller together with the state of its new queue. -/
def NewController (wq : WorkqueuePkg σ) (cache : CachePkg Obj) (clientset : Clientset)
    (informer : Option (SharedIndexInformer σ Obj)) : Outcome (Controller σ Obj × σ) :=
  let queue := wq.NewRateLimitingQueue
  match informer with
  | none => .panicked
  | some inf =>
    .returned
      ({ clientset := clientset
         queue := wq.ops
         informer := inf.AddEventHandler (NewController.eventHandler wq cache) }, queue)

/-- Method `syncHandler` (controller.go, lines 85 to 105). The Go result
`error` is `none` for nil. The unchecked assertion `obj.(runtime.Object)`
panics when the cached object is not a `runtime.Object`. -/
def Controller.syncHandler (cache : CachePkg Obj) (c : Controller σ Obj) (key : String) :
    Outcome (Option String) :=
  match cache.SplitMetaNamespaceKey key with
  | .error err => .returned (some err)
  | .ok _ =>
    match c.informer.GetByKey key with
    | .error err => .returned (some err)
    | .ok none => .returned none
    | .ok (some obj) =>
      if cache.isRuntimeObject obj then .returned none else .panicked

/-- The part of `processNextItem` after `defer c.queue.Done(key)`
(controller.go, lines 73 to 82): the assertion `key.(string)`, the call of
`syncHandler`, and `AddRateLimited` or `Forget`. -/
def Controller.processNextItem.body (cache : CachePkg Obj) (c : Controller σ Obj)
    (key : Item) (q : σ) : Step σ Bool :=
  match key with
  | .str k =>
    match c.syncHandler cache k with
    | .returned (some _) =>
      ⟨.returned true, c.queue.AddRateLimited key q,
        [.syncHandlerCall k, .queueAddRateLimited key]⟩
    | .returned none =>
      ⟨.returned true, c.queue.Forget key q, [.syncHandlerCall k, .queueForget key]⟩
    | .panicked => ⟨.panicked, q, [.syncHandlerCall k]⟩
    | .blocked => ⟨.blocked, q, [.syncHandlerCall k]⟩
  | _ => ⟨.panicked, q, []⟩

/-- Method `processNextItem` (controller.go, lines 66 to 83). The deferred
`Done(key)` runs after the body, when the body returns and when it panics. -/
def Controller.processNextItem (cache : CachePkg Obj) (c : Controller σ Obj) (q : σ) :
    Step σ Bool :=
  match c.queue.Get q with
  | none => ⟨.blocked, q, [.queueGet]⟩
  | some ((key, quit), q1) =>
    if quit then ⟨.returned false, q1, [.queueGet]⟩
    else
      let b := Controller.processNextItem.body cache c key q1
      match b.outcome with
      | .blocked => ⟨.blocked, b.queue, .queueGet :: b.events⟩
      | o => ⟨o, c.queue.Done key b.queue, .queueGet :: (b.events ++ [.queueDone key])⟩

/-- Method `runWorker` (controller.go, lines 61 to 64): the loop
`for c.processNextItem() {}`, run for at most `fuel` iterations. The answer is
`none` when the loop is still running after `fuel` iterations. -/
def Controller.runWorker (cache : CachePkg Obj) (c : Controller σ Obj) :
    Nat → σ → Option (Step σ Unit)
  | 0, _ => none
  | fuel + 1, q =>
    let s := c.processNextItem cache q
    match s.outcome with
    | .returned true =>
      match Controller.runWorker cache c fuel s.queue with
      | some rest => some ⟨rest.outcome, rest.queue, s.events ++ rest.events⟩
      | none => none
    | .returned false => some ⟨.returned (), s.queue, s.events⟩
    | .panicked => some ⟨.panicked, s.queue, s.events⟩
    | .blocked => some ⟨.blocked, s.queue, s.events⟩

/-- What the surroundings of one execution of `Run` do: the answer of
`cache.WaitForCacheSync(stopCh, c.informer.HasSynced)` (`none` when the
cache never syncs and `stopCh` is never closed, so that the wait never
returns), and whether `stopCh` is closed at some time, so that the receive
`<-stopCh` returns. -/
structure RunEnv where
  waitForCacheSync : Option Bool
  stopChCloses : Bool
deriving DecidableEq, Repr

/-- The loop `for i := 0; i < threadiness; i++` of `Run` (controller.go,
lines 53 to 55), from counter value `i` on: one goroutine
`wait.Until(c.runWorker, time.Second, stopCh)` is started per iteration. -/
def Controller.Run.startWorkers (threadiness : Int) (i : Int) : List Event :=
  if i < threadiness then
    Event.goWorker :: Controller.Run.startWorkers threadiness (i + 1)
  else []
termination_by (threadiness - i).toNat
decreasing_by omega

/-- The part of `Run` after `defer c.queue.ShutDown()` (controller.go, lines
44 to 58). -/
def Controller.Run.body (threadiness : Int) (env : RunEnv) : Outcome Unit × List Event :=
  match env.waitForCacheSync with
  | none => (.blocked, [.goInformerRun])
  | some false => (.returned (), [.goInformerRun, .waitForCacheSync false])
  | some true =>
    let started :=
      [Event.goInformerRun, Event.waitForCacheSync true] ++
        Controller.Run.startWorkers threadiness 0
    if env.stopChCloses then (.returned (), started ++ [.recvStopCh])
    else (.blocked, started)

/-- Method `Run` (controller.go, lines 41 to 59). The deferred
`c.queue.ShutDown()` runs when the body returns. -/
def Controller.Run (c : Controller σ Obj) (threadiness : Int) (env : RunEnv) (q : σ) :
    Step σ Unit :=
  let b := Controller.Run.body threadiness env
  match b.1 with
  | .blocked => ⟨.blocked, q, b.2⟩
  | o => ⟨o, c.queue.ShutDown q, b.2 ++ [.queueShutDown]⟩

/-- A `rest.Config` value, as `clientcmd.BuildConfigFromFlags` returns it. -/
structure Config where
  id : Nat
deriving DecidableEq, Repr

/-- What the surroundings of `main` do: the answers of
`clientcmd.BuildConfigFromFlags` and `kubernetes.NewForConfig`, and whether a
signal ever arrives on `signalCh`. -/
structure Bootstrap where
  BuildConfigFromFlags : Except String Config
  NewForConfig : Config → Except String Clientset
  signalArrives : Bool

/-- The steps of `main` that concern the controller. -/
inductive MainEvent where
  | callNewController
  | goControllerRun (threadiness : Int)
  | recvSignal
  | closeStopCh
deriving DecidableEq, Repr

/-- How the process ends: `klog.Fatalf` exits it, a panic crashes it, `main`
returns, or `main` waits for ever. -/
inductive Exit where
  | fatal (msg : String)
  | panic
  | normal
  | blocked
deriving DecidableEq, Repr

/-- Function `main` (main.go, lines 16 to 44). The informer argument of
`NewController` is the literal `nil`. -/
def main (wq : WorkqueuePkg σ) (cache : CachePkg Obj) (boot : Bootstrap) :
    Exit × List MainEvent :=
  match boot.BuildConfigFromFlags with
  | .error err => (.fatal ("Error building kubeconfig: " ++ err), [])
  | .ok config =>
    match boot.NewForConfig config with
    | .error err => (.fatal ("Error creating clientset: " ++ err), [])
    | .ok clientset =>
      match NewController wq cache clientset (none : Option (SharedIndexInformer σ Obj)) with
      | .panicked => (.panic, [.callNewController])
      | .blocked => (.blocked, [.callNewController])
      | .returned _ =>
        if boot.signalArrives then
          (.normal, [.callNewController, .goControllerRun 1, .recvSignal, .closeStopCh])
        else (.blocked, [.callNewController, .goControllerRun 1])

end Code

/-! ## The work queue, from the specification

Package `workqueue` belongs to k8s.io/client-go; its source is not part of
the repository. The definitions below follow sections 3, 4.1 and 6 of the
specification. -/

/-- Modelled from the spec: the configuration options `baseRetryDelay` and
`maxRetryDelay` of the rate limiter (section 6); the source of
`workqueue.DefaultControllerRateLimiter` is missing. Delays are whole numbers of
a time unit. -/
structure RateLimiterConfig where
  baseRetryDelay : Nat
  maxRetryDelay : Nat
deriving DecidableEq, Repr

/-- Modelled from the spec: the work queue state of section 3; the source of
the queue type of package `workqueue` is missing. `queued` is the pending
keys in insertion order, `processing` the keys held by a worker, `dirty` the
keys re-added while processing, `failures` the retry count of the rate-limit
record of each key, `scheduled` the insertions that `AddAfter` and
`AddRateLimited` have scheduled with their delays, `shuttingDown` the
draining state that `ShutDown` enters. -/
structure WorkQueueState where
  queued : List Item
  processing : List Item
  dirty : List Item
  failures : Item → Nat
  scheduled : List (Item × Nat)
  shuttingDown : Bool

/-- Modelled from the spec: the queue that `workqueue.NewRateLimitingQueue`
creates, whose source is missing: all sets empty, no failures recorded. -/
def WorkQueueState.empty : WorkQueueState :=
  { queued := [], processing := [], dirty := [], failures := fun _ => 0,
    scheduled := [], shuttingDown := false }

/-- Modelled from the spec: `Add(key)` of the missing queue type (section
4.1): inserts key into queued unless it is already in queued or processing;
in the latter case it is instead marked dirty. -/
def WorkQueueState.Add (key : Item) (s : WorkQueueState) : WorkQueueState :=
  if key ∈ s.processing then
    if key ∈ s.dirty then s else { s with dirty := s.dirty ++ [key] }
  else if key ∈ s.queued then s
  else { s with queued := s.queued ++ [key] }

/-- Modelled from the spec: `AddAfter(key, delay)` of the missing queue type
(section 4.1): schedules key for insertion into queued after a delay. -/
def WorkQueueState.AddAfter (key : Item) (delay : Nat) (s : WorkQueueState) :
    WorkQueueState :=
  { s with scheduled := s.scheduled ++ [(key, delay)] }

/-- Modelled from the spec: the delay that the missing rate limiter computes
for a key (section 4.1): base × 2^failureCount, capped at maxDelay. -/
def WorkQueueState.delay (cfg : RateLimiterConfig) (key : Item) (s : WorkQueueState) : Nat :=
  min (cfg.baseRetryDelay * 2 ^ s.failures key) cfg.maxRetryDelay

/-- Modelled from the spec: `AddRateLimited(key)` of the missing queue type
(section 4.1): computes the delay from the rate-limit record, schedules the
key after that delay, and increments the failure count. -/
def WorkQueueState.AddRateLimited (cfg : RateLimiterConfig) (key : Item)
    (s : WorkQueueState) : WorkQueueState :=
  let scheduled := WorkQueueState.AddAfter key (WorkQueueState.delay cfg key s) s
  { scheduled with
    failures := fun item => if item = key then s.failures key + 1 else s.failures item }

/-- Modelled from the spec: `Forget(key)` of the missing queue type (section
4.1): resets the rate-limit record for key to zero failures. -/
def WorkQueueState.Forget (key : Item) (s : WorkQueueState) : WorkQueueState :=
  { s with failures := fun item => if item = key then 0 else s.failures item }

/-- Modelled from the spec: `Get()` of the missing queue type (section 4.1):
blocks until a key is available in queued or the queue is shutting down;
moves the key from queued to processing; returns `(key, shuttingDown)`. After
`ShutDown` it returns shuttingDown=true once the queued set is empty. -/
def WorkQueueState.Get (s : WorkQueueState) : Option ((Item × Bool) × WorkQueueState) :=
  match s.queued with
  | key :: rest => some ((key, false), { s with queued := rest, processing := key :: s.processing })
  | [] => if s.shuttingDown then some ((Item.nil, true), s) else none

/-- Modelled from the spec: `Done(key)` of the missing queue type (section
4.1): moves key out of processing; if key was marked dirty, moves it to
queued and clears the dirty mark. -/
def WorkQueueState.Done (key : Item) (s : WorkQueueState) : WorkQueueState :=
  if key ∈ s.dirty then
    { s with processing := s.processing.filter (fun item => item ≠ key)
             dirty := s.dirty.filter (fun item => item ≠ key)
             queued := s.queued ++ [key] }
  else { s with processing := s.processing.filter (fun item => item ≠ key) }

/-- Modelled from the spec: `ShutDown()` of the missing queue type (section
4.1): transitions the queue to a draining state; idempotent. -/
def WorkQueueState.ShutDown (s : WorkQueueState) : WorkQueueState :=
  { s with shuttingDown := true }

/-- Modelled from the spec: package `workqueue`, whose source is missing, as
sections 3 and 4.1 describe its queue, for a given rate limiter. -/
def specWorkqueue (cfg : RateLimiterConfig) : WorkqueuePkg WorkQueueState :=
  { ops :=
      { Add := WorkQueueState.Add
        AddRateLimited := WorkQueueState.AddRateLimited cfg
        Forget := WorkQueueState.Forget
        Get := WorkQueueState.Get
        Done := WorkQueueState.Done
        ShutDown := WorkQueueState.ShutDown }
    NewRateLimitingQueue := WorkQueueState.empty }

/-- One call on the work queue. -/
inductive QueueOp where
  | add (key : Item)
  | addRateLimited (key : Item)
  | forget (key : Item)
  | get
  | done (key : Item)
  | shutDown
deriving DecidableEq, Repr

/-- The queue state after one call. A `Get` that blocks leaves the state as it
is. -/
def QueueOp.apply {σ : Type} (q : RateLimitingInterface σ) (op : QueueOp) (s : σ) : σ :=
  match op with
  | .add key => q.Add key s
  | .addRateLimited key => q.AddRateLimited key s
  | .forget key => q.Forget key s
  | .get =>
    match q.Get s with
    | some (_, s1) => s1
    | none => s
  | .done key => q.Done key s
  | .shutDown => q.ShutDown s

/-- The queue state after a sequence of calls, first call first. -/
def QueueOp.run {σ : Type} (q : RateLimitingInterface σ) (ops : List QueueOp) (s : σ) : σ :=
  ops.foldl (fun acc op => op.apply q acc) s

/-- The invariant of section 3 on the three sets: no key is queued twice, no
key is both queued and processing, and only processing keys are dirty. -/
def WorkQueueState.Inv (s : WorkQueueState) : Prop :=
  s.queued.Nodup ∧ (∀ key ∈ s.queued, key ∉ s.processing) ∧ (∀ key ∈ s.dirty, key ∈ s.processing)

/-! ## Fixtures for the examples -/

/-- A cached object of the examples: the key that `MetaNamespaceKeyFunc`
derives from it (empty when the object carries no metadata) and whether its
dynamic type implements `runtime.Object`. -/
structure ExampleObj where
  key : String
  typed : Bool
deriving DecidableEq, Repr

/-- Package `cache` of the examples. Keys have at most one slash. -/
def exampleCache : CachePkg ExampleObj :=
  { MetaNamespaceKeyFunc := fun o =>
      if o.key = "" then .error "object has no meta" else .ok o.key
    SplitMetaNamespaceKey := fun key =>
      match key.data.splitOn '/' with
      | [name] => .ok ("", String.mk name)
      | [ns, name] => .ok (String.mk ns, String.mk name)
      | _ => .error "unexpected key format"
    isRuntimeObject := fun o => o.typed }

/-- Work queue of the examples: a plain first-in first-out list without
deduplication, rate limiting or shutdown. -/
def exampleQueue : RateLimitingInterface (List Item) :=
  { Add := fun item q => q ++ [item]
    AddRateLimited := fun item q => q ++ [item]
    Forget := fun _ q => q
    Get := fun q =>
      match q with
      | [] => none
      | item :: rest => some ((item, false), rest)
    Done := fun _ q => q
    ShutDown := fun q => q }

/-- Package `workqueue` of the examples. -/
def exampleWorkqueue : WorkqueuePkg (List Item) :=
  { ops := exampleQueue, NewRateLimitingQueue := [] }

/-- Informer of the examples. Its index holds a well-typed object under
"ns/foo", an object that is not a `runtime.Object` under "ns/odd", fails for
"ns/err", and holds nothing else. -/
def exampleInformer {σ : Type} : SharedIndexInformer σ ExampleObj :=
  { handlers := []
    GetByKey := fun key =>
      if key = "ns/foo" then .ok (some ⟨"ns/foo", true⟩)
      else if key = "ns/odd" then .ok (some ⟨"ns/odd", false⟩)
      else if key = "ns/err" then .error "index unavailable"
      else .ok none }

/-- Controller of the examples. -/
def exampleController : Controller (List Item) ExampleObj :=
  { clientset := ⟨0⟩
    queue := exampleQueue
    informer := SharedIndexInformer.AddEventHandler exampleInformer
      (NewController.eventHandler exampleWorkqueue exampleCache) }

/-- Rate limiter of the examples: base delay 5, maximal delay 1000000. -/
def exampleRateLimiter : RateLimiterConfig :=
  { baseRetryDelay := 5, maxRetryDelay := 1000000 }

/-- Controller of the examples on the work queue of the specification. -/
def exampleSpecController : Controller WorkQueueState ExampleObj :=
  { clientset := ⟨0⟩
    queue := (specWorkqueue exampleRateLimiter).ops
    informer := SharedIndexInformer.AddEventHandler exampleInformer
      (NewController.eventHandler (specWorkqueue exampleRateLimiter) exampleCache) }

/-- A state of the work queue of the specification: the key "ns/baz" is held
by a worker, nothing is queued. -/
def exampleProcessingState : WorkQueueState :=
  { WorkQueueState.empty with processing := [Item.str "ns/baz"] }

/-- A successful bootstrap of `main`, with a signal that arrives. -/
def exampleBootstrap : Bootstrap :=
  { BuildConfigFromFlags := .ok ⟨0⟩
    NewForConfig := fun config => .ok ⟨config.id⟩
    signalArrives := true }

/-! ## Properties of the controller code -/

section Proofs

variable {σ Obj : Type}

theorem syncHandler_ne_blocked (cache : CachePkg Obj) (c : Controller σ Obj) (key : String) :
    c.syncHandler cache key ≠ .blocked := by
  unfold Controller.syncHandler
  split
  · simp
  · split
    · simp
    · simp
    · split <;> simp

theorem body_str_returned_none (cache : CachePkg Obj) (c : Controller σ Obj) (k : String)
    (q : σ) (h : c.syncHandler cache k = .returned none) :
    Controller.processNextItem.body cache c (.str k) q =
      ⟨.returned true, c.queue.Forget (.str k) q,
        [.syncHandlerCall k, .queueForget (.str k)]⟩ := by
  simp [Controller.processNextItem.body, h]

theorem body_str_returned_some (cache : CachePkg Obj) (c : Controller σ Obj) (k : String)
    (q : σ) (err : String) (h : c.syncHandler cache k = .returned (some err)) :
    Controller.processNextItem.body cache c (.str k) q =
      ⟨.returned true, c.queue.AddRateLimited (.str k) q,
        [.syncHandlerCall k, .queueAddRateLimited (.str k)]⟩ := by
  simp [Controller.processNextItem.body, h]

theorem body_str_panicked (cache : CachePkg Obj) (c : Controller σ Obj) (k : String)
    (q : σ) (h : c.syncHandler cache k = .panicked) :
    Controller.processNextItem.body cache c (.str k) q =
      ⟨.panicked, q, [.syncHandlerCall k]⟩ := by
  simp [Controller.processNextItem.body, h]

/-- The body of `processNextItem` never blocks and never calls `Done`. -/
theorem body_facts (cache : CachePkg Obj) (c : Controller σ Obj) (key : Item) (q : σ) :
    (Controller.processNextItem.body cache c key q).outcome ≠ .blocked ∧
    (Controller.processNextItem.body cache c key q).outcome ≠ .returned false ∧
    ∀ e ∈ (Controller.processNextItem.body cache c key q).events, e.isDone = false := by
  cases key with
  | nil => simp [Controller.processNextItem.body]
  | other tag => simp [Controller.processNextItem.body]
  | str k =>
    have hb := syncHandler_ne_blocked cache c k
    cases hs : c.syncHandler cache k with
    | blocked => exact absurd hs hb
    | panicked => simp [Controller.processNextItem.body, hs, Event.isDone]
    | returned r =>
      cases r with
      | none => simp [Controller.processNextItem.body, hs, Event.isDone]
      | some err => simp [Controller.processNextItem.body, hs, Event.isDone]

/-- When `Get` hands out an item, `processNextItem` runs the body and then the
deferred `Done`. -/
theorem processNextItem_of_get (cache : CachePkg Obj) (c : Controller σ Obj) (q q1 : σ)
    (key : Item) (h : c.queue.Get q = some ((key, false), q1)) :
    c.processNextItem cache q =
      ⟨(Controller.processNextItem.body cache c key q1).outcome,
        c.queue.Done key (Controller.processNextItem.body cache c key q1).queue,
        .queueGet :: ((Controller.processNextItem.body cache c key q1).events ++
          [.queueDone key])⟩ := by
  have hb := (body_facts cache c key q1).1
  unfold Controller.processNextItem
  rw [h]
  simp only [Bool.false_eq_true, if_false]

/-- C1, as stated, fails: in the example the queue hands out the key "ns/odd"
with quit=false, the cached object is not a `runtime.Object`, `syncHandler`
panics, and `processNextItem` calls neither `Forget` nor `AddRateLimited`. -/
theorem processNextItem_panic_calls_neither :
    exampleController.queue.Get [Item.str "ns/odd"] = some ((Item.str "ns/odd", false), []) ∧
    (exampleController.processNextItem exampleCache [Item.str "ns/odd"]).events.count
        (Event.queueForget (Item.str "ns/odd")) +
      (exampleController.processNextItem exampleCache [Item.str "ns/odd"]).events.count
        (Event.queueAddRateLimited (Item.str "ns/odd")) = 0 ∧
    (exampleController.processNextItem exampleCache [Item.str "ns/odd"]).events =
      [Event.queueGet, Event.syncHandlerCall "ns/odd", Event.queueDone (Item.str "ns/odd")] := by
  decide

/-- C1 (amended): for every queue state in which `Get` returns a key k with
quit=false and `syncHandler(k)` returns, `processNextItem` makes exactly one
call among `Forget` and `AddRateLimited`: `Forget(k)` when `syncHandler(k)`
returns nil, `AddRateLimited(k)` when it returns an error, applied to the queue
state that `Get` left and followed by the deferred `Done(k)`. When
`syncHandler(k)` panics, neither is called. -/
theorem processNextItem_forget_or_addRateLimited (cache : CachePkg Obj)
    (c : Controller σ Obj) (q q1 : σ) (k : String)
    (hget : c.queue.Get q = some ((Item.str k, false), q1)) :
    (c.syncHandler cache k = .returned none →
      (c.processNextItem cache q).events.filter Event.isForgetOrAddRateLimited =
        [Event.queueForget (Item.str k)] ∧
      (c.processNextItem cache q).queue =
        c.queue.Done (Item.str k) (c.queue.Forget (Item.str k) q1)) ∧
    (∀ err, c.syncHandler cache k = .returned (some err) →
      (c.processNextItem cache q).events.filter Event.isForgetOrAddRateLimited =
        [Event.queueAddRateLimited (Item.str k)] ∧
      (c.processNextItem cache q).queue =
        c.queue.Done (Item.str k) (c.queue.AddRateLimited (Item.str k) q1)) ∧
    (c.syncHandler cache k = .panicked →
      (c.processNextItem cache q).events.filter Event.isForgetOrAddRateLimited = [] ∧
      (c.processNextItem cache q).queue = c.queue.Done (Item.str k) q1) := by
  rw [processNextItem_of_get cache c q q1 (Item.str k) hget]
  refine ⟨fun h => ?_, fun err h => ?_, fun h => ?_⟩
  · rw [body_str_returned_none cache c k q1 h]
    simp [Event.isForgetOrAddRateLimited]
  · rw [body_str_returned_some cache c k q1 err h]
    simp [Event.isForgetOrAddRateLimited]
  · rw [body_str_panicked cache c k q1 h]
    simp [Event.isForgetOrAddRateLimited]

/-- C2: whenever `Get` returns an item with quit=false, `processNextItem`
ends (it returns true or panics), and on each of these exits it calls `Done`
exactly once, on that item, as its last call, hence after the `Forget` or
`AddRateLimited` call of the attempt. -/
theorem processNextItem_done_exactly_once (cache : CachePkg Obj) (c : Controller σ Obj)
    (q q1 : σ) (key : Item) (hget : c.queue.Get q = some ((key, false), q1)) :
    ((c.processNextItem cache q).outcome = .returned true ∨
      (c.processNextItem cache q).outcome = .panicked) ∧
    (c.processNextItem cache q).events.filter Event.isDone = [Event.queueDone key] ∧
    ∃ pre, (c.processNextItem cache q).events = pre ++ [Event.queueDone key] ∧
      ∀ e ∈ pre, e.isDone = false := by
  obtain ⟨hb, hf, hd⟩ := body_facts cache c key q1
  rw [processNextItem_of_get cache c q q1 key hget]
  refine ⟨?_, ?_, ?_⟩
  · cases ho : (Controller.processNextItem.body cache c key q1).outcome with
    | blocked => exact absurd ho hb
    | panicked => simp
    | returned b =>
      cases b with
      | true => simp
      | false => exact absurd ho hf
  · have hnil : (Controller.processNextItem.body cache c key q1).events.filter Event.isDone
        = [] := by
      rw [List.filter_eq_nil_iff]
      intro e he
      simp [hd e he]
    simp [List.filter_cons, Event.isDone, hnil]
  · refine ⟨Event.queueGet :: (Controller.processNextItem.body cache c key q1).events, ?_, ?_⟩
    · simp
    · intro e he
      rcases List.mem_cons.mp he with rfl | he
      · rfl
      · exact hd e he

/-- What `processNextItem` does when `Get` reports shutdown. -/
theorem processNextItem_of_shutdown (cache : CachePkg Obj) (c : Controller σ Obj) (q q1 : σ)
    (item : Item) (h : c.queue.Get q = some ((item, true), q1)) :
    c.processNextItem cache q = ⟨.returned false, q1, [Event.queueGet]⟩ := by
  simp [Controller.processNextItem, h]

/-- The result `false` of `processNextItem` comes from a `Get` that reported
shutdown. -/
theorem processNextItem_false_iff (cache : CachePkg Obj) (c : Controller σ Obj) (q : σ) :
    (c.processNextItem cache q).outcome = .returned false ↔
      ∃ item q1, c.queue.Get q = some ((item, true), q1) := by
  constructor
  · intro h
    cases hg : c.queue.Get q with
    | none => simp [Controller.processNextItem, hg] at h
    | some r =>
      obtain ⟨⟨item, quit⟩, q1⟩ := r
      cases quit with
      | true => exact ⟨item, q1, rfl⟩
      | false =>
        rw [processNextItem_of_get cache c q q1 item hg] at h
        exact absurd h (body_facts cache c item q1).2.1
  · rintro ⟨item, q1, hg⟩
    rw [processNextItem_of_shutdown cache c q q1 item hg]

/-- The loop of `runWorker` returns only after a `Get` that reported
shutdown. -/
theorem runWorker_returns_only_on_shutdown (cache : CachePkg Obj) (c : Controller σ Obj) :
    ∀ (fuel : Nat) (q : σ) (s : Step σ Unit), c.runWorker cache fuel q = some s →
      s.outcome = .returned () →
      ∃ q2 item, c.queue.Get q2 = some ((item, true), s.queue) := by
  intro fuel
  induction fuel with
  | zero => intro q s h; simp [Controller.runWorker] at h
  | succ n ih =>
    intro q s h hs
    unfold Controller.runWorker at h
    simp only at h
    cases ho : (c.processNextItem cache q).outcome with
    | blocked =>
      rw [ho] at h
      simp only [Option.some.injEq] at h
      subst h
      simp at hs
    | panicked =>
      rw [ho] at h
      simp only [Option.some.injEq] at h
      subst h
      simp at hs
    | returned b =>
      cases b with
      | false =>
        rw [ho] at h
        simp only [Option.some.injEq] at h
        subst h
        obtain ⟨item, q1, hg⟩ := (processNextItem_false_iff cache c q).mp ho
        refine ⟨q, item, ?_⟩
        rw [processNextItem_of_shutdown cache c q q1 item hg]
        exact hg
      | true =>
        rw [ho] at h
        cases hr : c.runWorker cache n (c.processNextItem cache q).queue with
        | none => simp [hr] at h
        | some rest =>
          simp only [hr, Option.some.injEq] at h
          subst h
          exact ih _ rest hr hs

/-- C8: `processNextItem` returns false if and only if `Get` reports that the
queue is shutting down, and then its only call is that `Get` (no
`syncHandler`, `Forget`, `AddRateLimited` or `Done`). Whenever `Get` returns a
key and `syncHandler` returns, with nil or with an error, `processNextItem`
returns true, and after a true result the loop of `runWorker` goes on with
the next iteration; the loop returns only after a `Get` that reported
shutdown. -/
theorem processNextItem_false_only_on_shutdown (cache : CachePkg Obj) (c : Controller σ Obj)
    (q : σ) :
    ((c.processNextItem cache q).outcome = .returned false ↔
      ∃ item q1, c.queue.Get q = some ((item, true), q1)) ∧
    (∀ item q1, c.queue.Get q = some ((item, true), q1) →
      (c.processNextItem cache q).events = [Event.queueGet] ∧
      (c.processNextItem cache q).queue = q1) ∧
    (∀ k q1 r, c.queue.Get q = some ((Item.str k, false), q1) →
      c.syncHandler cache k = .returned r →
      (c.processNextItem cache q).outcome = .returned true) ∧
    (∀ fuel, (c.processNextItem cache q).outcome = .returned true →
      c.runWorker cache (fuel + 1) q =
        (c.runWorker cache fuel (c.processNextItem cache q).queue).map
          (fun rest => ⟨rest.outcome, rest.queue,
            (c.processNextItem cache q).events ++ rest.events⟩)) ∧
    (∀ fuel s, c.runWorker cache fuel q = some s → s.outcome = .returned () →
      ∃ q2 item, c.queue.Get q2 = some ((item, true), s.queue)) := by
  refine ⟨processNextItem_false_iff cache c q, ?_, ?_, ?_, ?_⟩
  · intro item q1 hg
    rw [processNextItem_of_shutdown cache c q q1 item hg]
    exact ⟨rfl, rfl⟩
  · intro k q1 r hg hs
    rw [processNextItem_of_get cache c q q1 (Item.str k) hg]
    cases r with
    | none => rw [body_str_returned_none cache c k q1 hs]
    | some err => rw [body_str_returned_some cache c k q1 err hs]
  · intro fuel ho
    conv_lhs => unfold Controller.runWorker
    simp only [ho]
    cases c.runWorker cache fuel (c.processNextItem cache q).queue <;> rfl
  · intro fuel s h hs
    exact runWorker_returns_only_on_shutdown cache c fuel q s h hs

/-- With a non-nil informer `NewController` returns a controller that owns the
new queue and whose informer carries the handler literal as its last
handler. -/
theorem NewController_registers (wq : WorkqueuePkg σ) (cache : CachePkg Obj)
    (clientset : Clientset) (inf : SharedIndexInformer σ Obj) :
    ∃ c : Controller σ Obj,
      NewController wq cache clientset (some inf) = .returned (c, wq.NewRateLimitingQueue) ∧
      c.queue = wq.ops ∧
      c.informer.handlers = inf.handlers ++ [NewController.eventHandler wq cache] ∧
      c.informer.GetByKey = inf.GetByKey :=
  ⟨_, rfl, rfl, rfl, rfl⟩

/-- C3, as stated, fails: a Deleted notification and an Updated notification
for an object whose key extraction succeeds with "ns/foo" make the handler
that `NewController` registered call nothing on the queue. -/
theorem deleted_and_updated_not_enqueued :
    exampleCache.MetaNamespaceKeyFunc ⟨"ns/foo", true⟩ = .ok "ns/foo" ∧
    exampleController.informer.handlers =
      [NewController.eventHandler exampleWorkqueue exampleCache] ∧
    (NewController.eventHandler exampleWorkqueue exampleCache).deliver
      (Notification.deleted ⟨"ns/foo", true⟩) [] = ([], []) ∧
    (NewController.eventHandler exampleWorkqueue exampleCache).deliver
      (Notification.updated ⟨"ns/foo", true⟩ ⟨"ns/foo", true⟩) [] = ([], []) :=
  ⟨rfl, rfl, rfl, rfl⟩

/-- C3 (amended): the handler that `NewController` registers on the informer
sets `AddFunc` only. For an Added notification with an object whose key
extraction succeeds with key k it calls `Add(k)` on the work queue; for an
Updated and for a Deleted notification it makes no call on the work queue. -/
theorem eventHandler_enqueues_added_only (wq : WorkqueuePkg σ) (cache : CachePkg Obj)
    (clientset : Clientset) (inf : SharedIndexInformer σ Obj) :
    (∃ c : Controller σ Obj,
      NewController wq cache clientset (some inf) = .returned (c, wq.NewRateLimitingQueue) ∧
      c.informer.handlers = inf.handlers ++ [NewController.eventHandler wq cache]) ∧
    (∀ obj k q, cache.MetaNamespaceKeyFunc obj = .ok k →
      (NewController.eventHandler wq cache).deliver (Notification.added obj) q =
        (wq.ops.Add (Item.str k) q, [Event.queueAdd (Item.str k)])) ∧
    (∀ oldObj newObj q,
      (NewController.eventHandler wq cache).deliver (Notification.updated oldObj newObj) q =
        (q, [])) ∧
    (∀ obj q,
      (NewController.eventHandler wq cache).deliver (Notification.deleted obj) q = (q, [])) := by
  refine ⟨⟨_, rfl, rfl⟩, ?_, ?_, ?_⟩
  · intro obj k q h
    simp [ResourceEventHandlerFuncs.deliver, ResourceEventHandlerFuncs.OnAdd,
      NewController.eventHandler, h]
  · intro oldObj newObj q
    rfl
  · intro obj q
    rfl

/-- C4: for an Added notification with object obj, the handler that
`NewController` registers makes no queue call and leaves the queue state as
it is when key extraction fails, and makes exactly one queue call, `Add(k)`
with the key alone as its argument, when key extraction succeeds with key
k. -/
theorem addFunc_drops_or_adds_key (wq : WorkqueuePkg σ) (cache : CachePkg Obj)
    (clientset : Clientset) (inf : SharedIndexInformer σ Obj) (obj : Obj) (q : σ) :
    (∃ c : Controller σ Obj,
      NewController wq cache clientset (some inf) = .returned (c, wq.NewRateLimitingQueue) ∧
      c.informer.handlers = inf.handlers ++ [NewController.eventHandler wq cache]) ∧
    (∀ err, cache.MetaNamespaceKeyFunc obj = .error err →
      (NewController.eventHandler wq cache).OnAdd obj q = (q, [])) ∧
    (∀ k, cache.MetaNamespaceKeyFunc obj = .ok k →
      (NewController.eventHandler wq cache).OnAdd obj q =
        (wq.ops.Add (Item.str k) q, [Event.queueAdd (Item.str k)])) := by
  refine ⟨⟨_, rfl, rfl⟩, ?_, ?_⟩
  · intro err h
    simp [ResourceEventHandlerFuncs.OnAdd, NewController.eventHandler, h]
  · intro k h
    simp [ResourceEventHandlerFuncs.OnAdd, NewController.eventHandler, h]

/-- The worker loop of `Run` starts one worker per remaining counter value. -/
theorem startWorkers_eq_replicate (threadiness : Int) :
    ∀ (n : Nat) (i : Int), (threadiness - i).toNat = n →
      Controller.Run.startWorkers threadiness i = List.replicate n Event.goWorker := by
  intro n
  induction n with
  | zero =>
    intro i h
    rw [Controller.Run.startWorkers]
    have : ¬ i < threadiness := by omega
    simp [this]
  | succ m ih =>
    intro i h
    rw [Controller.Run.startWorkers]
    have hlt : i < threadiness := by omega
    have hm : (threadiness - (i + 1)).toNat = m := by omega
    simp [hlt, ih (i + 1) hm, List.replicate_succ]

/-- The events of `Run`, by the answer of the cache sync wait. -/
theorem Run_body_eq (threadiness : Int) (env : RunEnv) :
    Controller.Run.body threadiness env =
      match env.waitForCacheSync with
      | none => (.blocked, [Event.goInformerRun])
      | some false => (.returned (), [Event.goInformerRun, Event.waitForCacheSync false])
      | some true =>
        if env.stopChCloses then
          (.returned (), Event.goInformerRun :: Event.waitForCacheSync true ::
            (List.replicate threadiness.toNat Event.goWorker ++ [Event.recvStopCh]))
        else
          (.blocked, Event.goInformerRun :: Event.waitForCacheSync true ::
            List.replicate threadiness.toNat Event.goWorker) := by
  unfold Controller.Run.body
  rw [startWorkers_eq_replicate threadiness threadiness.toNat 0 (by simp)]
  rcases env with ⟨w, st⟩
  rcases w with _ | _ | _ <;> cases st <;> simp

/-- A list that ends in an element it does not hold elsewhere splits at that
element in one way only. -/
theorem split_at_last {α : Type} (x : α) :
    ∀ (l pre post : List α), x ∉ l → pre ++ x :: post = l ++ [x] → pre = l ∧ post = [] := by
  intro l
  induction l with
  | nil =>
    intro pre post _ h
    cases pre with
    | nil => simpa using h
    | cons a pre1 =>
      simp only [List.cons_append, List.nil_append, List.cons.injEq] at h
      exact absurd h.2 (by simp)
  | cons b l1 ih =>
    intro pre post hx h
    cases pre with
    | nil =>
      simp only [List.nil_append, List.cons_append, List.cons.injEq] at h
      exact absurd h.1 (fun e => hx (by simp [e]))
    | cons a pre1 =>
      simp only [List.cons_append, List.cons.injEq] at h
      have hx1 : x ∉ l1 := fun hm => hx (List.mem_cons_of_mem _ hm)
      obtain ⟨h1, h2⟩ := ih pre1 post hx1 h.2
      exact ⟨by rw [h.1, h1], h2⟩

/-- C5: in every execution of `Run`, for every threadiness, each start of a
worker comes after `WaitForCacheSync` has returned true, and `Run` itself
never calls `syncHandler`. When the wait returns false, `Run` returns and has
started no worker; when it returns true, `Run` starts one worker per unit of
threadiness. -/
theorem Run_starts_workers_only_after_sync (c : Controller σ Obj) (threadiness : Int)
    (env : RunEnv) (q : σ) :
    (∀ pre post, (c.Run threadiness env q).events = pre ++ Event.goWorker :: post →
      Event.waitForCacheSync true ∈ pre) ∧
    (∀ k, Event.syncHandlerCall k ∉ (c.Run threadiness env q).events) ∧
    (env.waitForCacheSync = some false →
      (c.Run threadiness env q).outcome = .returned () ∧
      (c.Run threadiness env q).events.count Event.goWorker = 0) ∧
    (env.waitForCacheSync = some true →
      (c.Run threadiness env q).events.count Event.goWorker = threadiness.toNat) := by
  unfold Controller.Run
  rw [Run_body_eq]
  rcases env with ⟨w, st⟩
  rcases w with _ | _ | _
  · refine ⟨?_, ?_, ?_, ?_⟩
    · intro pre post h
      have hm : Event.goWorker ∈ pre ++ Event.goWorker :: post := by simp
      rw [← h] at hm
      simp at hm
    · simp
    · simp
    · simp
  · refine ⟨?_, ?_, ?_, ?_⟩
    · intro pre post h
      have hm : Event.goWorker ∈ pre ++ Event.goWorker :: post := by simp
      rw [← h] at hm
      simp at hm
    · simp
    · simp [List.count_cons]
    · simp
  · refine ⟨?_, ?_, ?_, ?_⟩
    · intro pre post h
      cases st <;> simp only [Bool.false_eq_true, if_false, if_true] at h
      all_goals
        cases pre with
        | nil => simp at h
        | cons a pre1 =>
          cases pre1 with
          | nil => simp at h
          | cons b pre2 =>
            simp only [List.cons_append, List.cons.injEq] at h
            simp [← h.2.1]
    · cases st <;> simp [List.mem_replicate]
    · simp
    · cases st <;> simp [List.count_cons, List.count_replicate]

/-- C9: every execution of `Run` that returns calls `ShutDown` on the work
queue exactly once, as its last call and its only queue call. `Run` returns on
two paths, after the cache sync wait has failed (no worker started) and after
the receive on the stop channel in the running state. In no execution does
`ShutDown` come before the failed wait or the receive on the stop channel,
and an execution that does not return does not call it. -/
theorem Run_shuts_down_once_at_end (c : Controller σ Obj) (threadiness : Int)
    (env : RunEnv) (q : σ) :
    ((c.Run threadiness env q).outcome = .returned () →
      (c.Run threadiness env q).events.count Event.queueShutDown = 1 ∧
      (c.Run threadiness env q).events.filter Event.isQueueOp = [Event.queueShutDown] ∧
      (∃ pre, (c.Run threadiness env q).events = pre ++ [Event.queueShutDown]) ∧
      (c.Run threadiness env q).queue = c.queue.ShutDown q) ∧
    ((c.Run threadiness env q).outcome = .returned () ↔
      env.waitForCacheSync = some false ∨
        (env.waitForCacheSync = some true ∧ env.stopChCloses = true)) ∧
    (env.waitForCacheSync = some false →
      (c.Run threadiness env q).events =
        [Event.goInformerRun, Event.waitForCacheSync false, Event.queueShutDown]) ∧
    (∀ pre post, (c.Run threadiness env q).events = pre ++ Event.queueShutDown :: post →
      Event.recvStopCh ∈ pre ∨ Event.waitForCacheSync false ∈ pre) ∧
    ((c.Run threadiness env q).outcome ≠ .returned () →
      Event.queueShutDown ∉ (c.Run threadiness env q).events) := by
  unfold Controller.Run
  rw [Run_body_eq]
  rcases env with ⟨w, st⟩
  rcases w with _ | _ | _
  · refine ⟨?_, ?_, ?_, ?_, ?_⟩
    · simp
    · simp
    · simp
    · intro pre post h
      have hm : Event.queueShutDown ∈ pre ++ Event.queueShutDown :: post := by simp
      rw [← h] at hm
      simp at hm
    · simp
  · refine ⟨?_, ?_, ?_, ?_, ?_⟩
    · intro _
      refine ⟨by simp [List.count_cons], by simp [Event.isQueueOp], ⟨_, rfl⟩, rfl⟩
    · simp
    · simp
    · intro pre post h
      have hs := split_at_last Event.queueShutDown
        [Event.goInformerRun, Event.waitForCacheSync false] pre post (by simp) h.symm
      right
      rw [hs.1]
      simp
    · simp
  · cases st
    · refine ⟨?_, ?_, ?_, ?_, ?_⟩
      · simp
      · simp
      · simp
      · intro pre post h
        have hm : Event.queueShutDown ∈ pre ++ Event.queueShutDown :: post := by simp
        rw [← h] at hm
        simp [List.mem_replicate] at hm
      · simp [List.mem_replicate]
    · refine ⟨?_, ?_, ?_, ?_, ?_⟩
      · intro _
        refine ⟨?_, ?_, ⟨_, rfl⟩, rfl⟩
        · simp [List.count_cons, List.count_replicate]
        · simp [List.filter_cons, List.filter_replicate, Event.isQueueOp]
      · simp
      · simp
      · intro pre post h
        have hs := split_at_last Event.queueShutDown
          (Event.goInformerRun :: Event.waitForCacheSync true ::
            (List.replicate threadiness.toNat Event.goWorker ++ [Event.recvStopCh]))
          pre post (by simp [List.mem_replicate]) (by simpa using h.symm)
        left
        rw [hs.1]
        simp
      · simp

/-- C10: `NewController` panics on a nil informer, at the call of
`AddEventHandler`, before it returns a controller, and registers its handler
on every non-nil informer. `main` passes the literal nil: whatever the
bootstrap does, `main` never starts `controller.Run` and never returns
normally; when both bootstrap calls succeed the process ends in that
panic. -/
theorem main_never_reaches_Run (wq : WorkqueuePkg σ) (cache : CachePkg Obj)
    (boot : Bootstrap) :
    (∀ clientset, NewController wq cache clientset
      (none : Option (SharedIndexInformer σ Obj)) = .panicked) ∧
    (∀ clientset (inf : SharedIndexInformer σ Obj),
      ∃ c, NewController wq cache clientset (some inf) = .returned (c, wq.NewRateLimitingQueue) ∧
        NewController.eventHandler wq cache ∈ c.informer.handlers) ∧
    (∀ n, MainEvent.goControllerRun n ∉ (main wq cache boot).2) ∧
    (main wq cache boot).1 ≠ Exit.normal ∧
    (∀ config clientset, boot.BuildConfigFromFlags = .ok config →
      boot.NewForConfig config = .ok clientset →
      main wq cache boot = (Exit.panic, [MainEvent.callNewController])) := by
  refine ⟨fun _ => rfl, fun _ _ => ⟨_, rfl, by simp [SharedIndexInformer.AddEventHandler]⟩,
    ?_, ?_, ?_⟩
  · intro n
    unfold main
    cases h1 : boot.BuildConfigFromFlags with
    | error err => simp
    | ok config =>
      cases h2 : boot.NewForConfig config with
      | error err => simp [h2]
      | ok clientset => simp [h2, NewController]
  · unfold main
    cases h1 : boot.BuildConfigFromFlags with
    | error err => simp
    | ok config =>
      cases h2 : boot.NewForConfig config with
      | error err => simp [h2]
      | ok clientset => simp [h2, NewController]
  · intro config clientset h1 h2
    simp [main, h1, h2, NewController]

end Proofs

/-! ## Properties of the work queue of the specification -/

theorem WorkQueueState.inv_empty : WorkQueueState.empty.Inv := by
  simp [WorkQueueState.Inv, WorkQueueState.empty]

theorem WorkQueueState.inv_Add (key : Item) (s : WorkQueueState) (h : s.Inv) :
    (s.Add key).Inv := by
  obtain ⟨h1, h2, h3⟩ := h
  unfold WorkQueueState.Add
  by_cases hp : key ∈ s.processing
  · by_cases hd : key ∈ s.dirty
    · simp only [hp, hd, if_true]
      exact ⟨h1, h2, h3⟩
    · simp only [hp, hd, if_true, if_false]
      refine ⟨h1, h2, ?_⟩
      intro x hx
      rcases List.mem_append.mp hx with hx | hx
      · exact h3 x hx
      · simp only [List.mem_singleton] at hx
        rw [hx]
        exact hp
  · by_cases hq : key ∈ s.queued
    · simp only [hp, hq, if_true, if_false]
      exact ⟨h1, h2, h3⟩
    · simp only [hp, hq, if_false]
      refine ⟨?_, ?_, h3⟩
      · rw [List.nodup_append]
        refine ⟨h1, List.nodup_singleton key, ?_⟩
        intro x hx hx1
        simp only [List.mem_singleton] at hx1
        exact hq (hx1 ▸ hx)
      · intro x hx
        rcases List.mem_append.mp hx with hx | hx
        · exact h2 x hx
        · simp only [List.mem_singleton] at hx
          rw [hx]
          exact hp

theorem WorkQueueState.inv_Done (key : Item) (s : WorkQueueState) (h : s.Inv) :
    (s.Done key).Inv := by
  obtain ⟨h1, h2, h3⟩ := h
  unfold WorkQueueState.Done
  by_cases hd : key ∈ s.dirty
  · simp only [hd, if_true]
    have hq : key ∉ s.queued := fun hq => h2 key hq (h3 key hd)
    refine ⟨?_, ?_, ?_⟩
    · rw [List.nodup_append]
      refine ⟨h1, List.nodup_singleton key, ?_⟩
      intro x hx hx1
      simp only [List.mem_singleton] at hx1
      exact hq (hx1 ▸ hx)
    · intro x hx
      rcases List.mem_append.mp hx with hx | hx
      · intro hm
        exact h2 x hx (List.mem_filter.mp hm).1
      · simp only [List.mem_singleton] at hx
        rw [hx]
        simp [List.mem_filter]
    · intro x hx
      obtain ⟨hx1, hx2⟩ := List.mem_filter.mp hx
      exact List.mem_filter.mpr ⟨h3 x hx1, hx2⟩
  · simp only [hd, if_false]
    refine ⟨h1, ?_, ?_⟩
    · intro x hx hm
      exact h2 x hx (List.mem_filter.mp hm).1
    · intro x hx
      refine List.mem_filter.mpr ⟨h3 x hx, ?_⟩
      have : x ≠ key := fun e => hd (e ▸ hx)
      simpa using this

/-- What a `Get` that hands out a key does to the state. -/
theorem WorkQueueState.Get_key (s s1 : WorkQueueState) (key : Item)
    (h : s.Get = some ((key, false), s1)) :
    ∃ rest, s.queued = key :: rest ∧
      s1 = { s with queued := rest, processing := key :: s.processing } := by
  unfold WorkQueueState.Get at h
  split at h
  · next k rest hq =>
    simp only [Option.some.injEq, Prod.mk.injEq, and_true] at h
    exact ⟨rest, by rw [hq, h.1], h.2.symm ▸ by rw [h.1]⟩
  · split at h <;> simp at h

theorem WorkQueueState.inv_Get (s s1 : WorkQueueState) (r : Item × Bool)
    (hg : s.Get = some (r, s1)) (h : s.Inv) : s1.Inv := by
  obtain ⟨h1, h2, h3⟩ := h
  unfold WorkQueueState.Get at hg
  split at hg
  · next k rest hq =>
    simp only [Option.some.injEq, Prod.mk.injEq] at hg
    rw [← hg.2]
    rw [hq] at h1 h2
    refine ⟨(List.nodup_cons.mp h1).2, ?_, ?_⟩
    · intro x hx hm
      rcases List.mem_cons.mp hm with hm | hm
      · exact (List.nodup_cons.mp h1).1 (hm ▸ hx)
      · exact h2 x (List.mem_cons_of_mem _ hx) hm
    · intro x hx
      exact List.mem_cons_of_mem _ (h3 x hx)
  · split at hg
    · simp only [Option.some.injEq, Prod.mk.injEq] at hg
      rw [← hg.2]
      exact ⟨h1, h2, h3⟩
    · simp at hg

/-- Every call on the queue of the specification keeps the invariant. -/
theorem WorkQueueState.inv_apply (cfg : RateLimiterConfig) (op : QueueOp)
    (s : WorkQueueState) (h : s.Inv) : (op.apply (specWorkqueue cfg).ops s).Inv := by
  cases op with
  | add key => exact WorkQueueState.inv_Add key s h
  | addRateLimited key => exact h
  | forget key => exact h
  | get =>
    simp only [QueueOp.apply, specWorkqueue]
    cases hg : s.Get with
    | none => exact h
    | some r => exact WorkQueueState.inv_Get s r.2 r.1 hg h
  | done key => exact WorkQueueState.inv_Done key s h
  | shutDown => exact h

/-- Every state that calls on the queue reach from a state with the invariant
has the invariant. -/
theorem WorkQueueState.inv_run (cfg : RateLimiterConfig) (ops : List QueueOp) :
    ∀ s : WorkQueueState, s.Inv → (QueueOp.run (specWorkqueue cfg).ops ops s).Inv := by
  induction ops with
  | nil => intro s h; exact h
  | cons op rest ih =>
    intro s h
    exact ih _ (WorkQueueState.inv_apply cfg op s h)

/-- Re-adding a key that is processing changes the dirty marks only, and
marks the key. -/
theorem WorkQueueState.Add_processing (key : Item) (s : WorkQueueState)
    (hp : key ∈ s.processing) :
    (s.Add key).queued = s.queued ∧ (s.Add key).processing = s.processing ∧
      key ∈ (s.Add key).dirty := by
  unfold WorkQueueState.Add
  by_cases hd : key ∈ s.dirty
  · simp [hp, hd]
  · simp [hp, hd]

theorem WorkQueueState.iterate_Add_processing (key : Item) :
    ∀ (n : Nat) (s : WorkQueueState), key ∈ s.processing →
      ((WorkQueueState.Add key)^[n] s).queued = s.queued ∧
      ((WorkQueueState.Add key)^[n] s).processing = s.processing ∧
      (1 ≤ n → key ∈ ((WorkQueueState.Add key)^[n] s).dirty) := by
  intro n
  induction n with
  | zero => intro s _; simp
  | succ m ih =>
    intro s hp
    rw [Function.iterate_succ_apply']
    obtain ⟨h1, h2, _⟩ := ih s hp
    have hp1 : key ∈ ((WorkQueueState.Add key)^[m] s).processing := h2 ▸ hp
    obtain ⟨a1, a2, a3⟩ := WorkQueueState.Add_processing key _ hp1
    exact ⟨a1.trans h1, a2.trans h2, fun _ => a3⟩

theorem WorkQueueState.iterate_AddRateLimited_failures (cfg : RateLimiterConfig) (key : Item) :
    ∀ (n : Nat) (s : WorkQueueState),
      ((WorkQueueState.AddRateLimited cfg key)^[n] s).failures key = s.failures key + n := by
  intro n
  induction n with
  | zero => intro s; simp
  | succ m ih =>
    intro s
    rw [Function.iterate_succ_apply', WorkQueueState.AddRateLimited]
    simp only [WorkQueueState.AddAfter, if_true]
    rw [ih s]
    omega

/-- C6: on the work queue of the specification, in every state that calls on
the new queue reach and in which `Get` returns a key k, for every n ≥ 1:
during n calls of `Add(k)` the key stays in the processing set and out of the
queued set, and after the `Done(k)` that follows them the key is out of the
processing set and occurs in the queued set exactly once, at its end,
whatever n is. -/
theorem Add_while_processing_requeues_once (cfg : RateLimiterConfig) (ops : List QueueOp)
    (k : Item) (s1 : WorkQueueState) (n : Nat) (hn : 1 ≤ n)
    (hget : (specWorkqueue cfg).ops.Get
      (QueueOp.run (specWorkqueue cfg).ops ops (specWorkqueue cfg).NewRateLimitingQueue) =
        some ((k, false), s1)) :
    (∀ i, i ≤ n →
      k ∈ (((specWorkqueue cfg).ops.Add k)^[i] s1).processing ∧
      k ∉ (((specWorkqueue cfg).ops.Add k)^[i] s1).queued) ∧
    ((specWorkqueue cfg).ops.Done k (((specWorkqueue cfg).ops.Add k)^[n] s1)).queued.count k
      = 1 ∧
    ((specWorkqueue cfg).ops.Done k (((specWorkqueue cfg).ops.Add k)^[n] s1)).queued
      = s1.queued ++ [k] ∧
    k ∉ ((specWorkqueue cfg).ops.Done k (((specWorkqueue cfg).ops.Add k)^[n] s1)).processing ∧
    k ∉ ((specWorkqueue cfg).ops.Done k (((specWorkqueue cfg).ops.Add k)^[n] s1)).dirty := by
  have hinv := WorkQueueState.inv_run cfg ops _ WorkQueueState.inv_empty
  change WorkQueueState.Get (QueueOp.run (specWorkqueue cfg).ops ops WorkQueueState.empty) = _
    at hget
  obtain ⟨rest, hq, hs1⟩ := WorkQueueState.Get_key _ s1 k hget
  have hnd : k ∉ rest := by
    have := hinv.1
    rw [hq] at this
    exact (List.nodup_cons.mp this).1
  have hp1 : k ∈ s1.processing := by rw [hs1]; simp
  have hq1 : s1.queued = rest := by rw [hs1]
  change (∀ i, i ≤ n →
      k ∈ ((WorkQueueState.Add k)^[i] s1).processing ∧
      k ∉ ((WorkQueueState.Add k)^[i] s1).queued) ∧
    (WorkQueueState.Done k ((WorkQueueState.Add k)^[n] s1)).queued.count k = 1 ∧
    (WorkQueueState.Done k ((WorkQueueState.Add k)^[n] s1)).queued = s1.queued ++ [k] ∧
    k ∉ (WorkQueueState.Done k ((WorkQueueState.Add k)^[n] s1)).processing ∧
    k ∉ (WorkQueueState.Done k ((WorkQueueState.Add k)^[n] s1)).dirty
  refine ⟨?_, ?_⟩
  · intro i _
    obtain ⟨a1, a2, _⟩ := WorkQueueState.iterate_Add_processing k i s1 hp1
    rw [a1, a2, hq1]
    exact ⟨hp1, hnd⟩
  · obtain ⟨a1, a2, a3⟩ := WorkQueueState.iterate_Add_processing k n s1 hp1
    have hd := a3 hn
    have hdone : (WorkQueueState.Done k ((WorkQueueState.Add k)^[n] s1)).queued =
        s1.queued ++ [k] := by
      simp [WorkQueueState.Done, hd, a1]
    refine ⟨?_, hdone, ?_, ?_⟩
    · rw [hdone, hq1, List.count_append, List.count_eq_zero_of_not_mem hnd]
      simp
    · simp [WorkQueueState.Done, hd, List.mem_filter]
    · simp [WorkQueueState.Done, hd, List.mem_filter]

/-- C7: on the rate-limiting queue of the specification, with a base delay
that does not exceed the maximal delay, for every key k, every state and
every number n of further consecutive failures of k: the delay that the
`AddRateLimited(k)` after a `Forget(k)` uses is the base delay, while without
the `Forget(k)` it is the accumulated base × 2^failures, capped at the
maximal delay. -/
theorem Forget_resets_backoff (cfg : RateLimiterConfig)
    (hcfg : cfg.baseRetryDelay ≤ cfg.maxRetryDelay) (s : WorkQueueState) (k : Item) (n : Nat) :
    ((specWorkqueue cfg).ops.AddRateLimited k
        ((specWorkqueue cfg).ops.Forget k
          (((specWorkqueue cfg).ops.AddRateLimited k)^[n] s))).scheduled =
      (((specWorkqueue cfg).ops.AddRateLimited k)^[n] s).scheduled ++
        [(k, cfg.baseRetryDelay)] ∧
    ((specWorkqueue cfg).ops.AddRateLimited k
        (((specWorkqueue cfg).ops.AddRateLimited k)^[n] s)).scheduled =
      (((specWorkqueue cfg).ops.AddRateLimited k)^[n] s).scheduled ++
        [(k, min (cfg.baseRetryDelay * 2 ^ (s.failures k + n)) cfg.maxRetryDelay)] := by
  change (WorkQueueState.AddRateLimited cfg k
        (WorkQueueState.Forget k ((WorkQueueState.AddRateLimited cfg k)^[n] s))).scheduled =
      ((WorkQueueState.AddRateLimited cfg k)^[n] s).scheduled ++ [(k, cfg.baseRetryDelay)] ∧
    (WorkQueueState.AddRateLimited cfg k
        ((WorkQueueState.AddRateLimited cfg k)^[n] s)).scheduled =
      ((WorkQueueState.AddRateLimited cfg k)^[n] s).scheduled ++
        [(k, min (cfg.baseRetryDelay * 2 ^ (s.failures k + n)) cfg.maxRetryDelay)]
  constructor
  · simp [WorkQueueState.AddRateLimited, WorkQueueState.AddAfter, WorkQueueState.delay,
      WorkQueueState.Forget, hcfg]
  · simp [WorkQueueState.AddRateLimited, WorkQueueState.AddAfter, WorkQueueState.delay,
      WorkQueueState.iterate_AddRateLimited_failures]

/-! ## Instances on the examples -/

theorem processNextItem_forget_or_addRateLimited_witness :
    exampleController.queue.Get [Item.str "ns/err"] = some ((Item.str "ns/err", false), []) ∧
    exampleController.syncHandler exampleCache "ns/err" =
      .returned (some "index unavailable") ∧
    (exampleController.processNextItem exampleCache [Item.str "ns/err"]).events.filter
      Event.isForgetOrAddRateLimited = [Event.queueAddRateLimited (Item.str "ns/err")] ∧
    exampleController.syncHandler exampleCache "ns/foo" = .returned none ∧
    (exampleController.processNextItem exampleCache [Item.str "ns/foo"]).events.filter
      Event.isForgetOrAddRateLimited = [Event.queueForget (Item.str "ns/foo")] :=
  ⟨rfl, rfl,
    ((processNextItem_forget_or_addRateLimited exampleCache exampleController
      [Item.str "ns/err"] [] "ns/err" rfl).2.1 "index unavailable" rfl).1,
    rfl,
    ((processNextItem_forget_or_addRateLimited exampleCache exampleController
      [Item.str "ns/foo"] [] "ns/foo" rfl).1 rfl).1⟩

theorem processNextItem_done_exactly_once_witness :
    exampleController.queue.Get [Item.str "ns/odd"] = some ((Item.str "ns/odd", false), []) ∧
    (exampleController.processNextItem exampleCache [Item.str "ns/odd"]).outcome = .panicked ∧
    (exampleController.processNextItem exampleCache [Item.str "ns/odd"]).events.filter
      Event.isDone = [Event.queueDone (Item.str "ns/odd")] :=
  ⟨rfl, rfl,
    (processNextItem_done_exactly_once exampleCache exampleController
      [Item.str "ns/odd"] [] (Item.str "ns/odd") rfl).2.1⟩

theorem eventHandler_enqueues_added_only_witness :
    exampleCache.MetaNamespaceKeyFunc ⟨"ns/foo", true⟩ = .ok "ns/foo" ∧
    (NewController.eventHandler exampleWorkqueue exampleCache).deliver
      (Notification.added ⟨"ns/foo", true⟩) [] =
        ([Item.str "ns/foo"], [Event.queueAdd (Item.str "ns/foo")]) :=
  ⟨rfl,
    (eventHandler_enqueues_added_only exampleWorkqueue exampleCache ⟨0⟩
      exampleInformer).2.1 ⟨"ns/foo", true⟩ "ns/foo" [] rfl⟩

theorem addFunc_drops_or_adds_key_witness :
    exampleCache.MetaNamespaceKeyFunc ⟨"", true⟩ = .error "object has no meta" ∧
    (NewController.eventHandler exampleWorkqueue exampleCache).OnAdd ⟨"", true⟩
      [Item.str "ns/foo"] = ([Item.str "ns/foo"], []) ∧
    exampleCache.MetaNamespaceKeyFunc ⟨"ns/bar", true⟩ = .ok "ns/bar" ∧
    (NewController.eventHandler exampleWorkqueue exampleCache).OnAdd ⟨"ns/bar", true⟩
      [Item.str "ns/foo"] =
        ([Item.str "ns/foo", Item.str "ns/bar"], [Event.queueAdd (Item.str "ns/bar")]) :=
  ⟨rfl,
    (addFunc_drops_or_adds_key exampleWorkqueue exampleCache ⟨0⟩ exampleInformer
      ⟨"", true⟩ [Item.str "ns/foo"]).2.1 "object has no meta" rfl,
    rfl,
    (addFunc_drops_or_adds_key exampleWorkqueue exampleCache ⟨0⟩ exampleInformer
      ⟨"ns/bar", true⟩ [Item.str "ns/foo"]).2.2 "ns/bar" rfl⟩

theorem Run_starts_workers_only_after_sync_witness :
    ((exampleController.Run 2 ⟨some false, true⟩ []).outcome = .returned () ∧
      (exampleController.Run 2 ⟨some false, true⟩ []).events.count Event.goWorker = 0) ∧
    (exampleController.Run 2 ⟨some true, true⟩ []).events.count Event.goWorker = 2 :=
  ⟨(Run_starts_workers_only_after_sync exampleController 2 ⟨some false, true⟩ []).2.2.1 rfl,
    (Run_starts_workers_only_after_sync exampleController 2 ⟨some true, true⟩ []).2.2.2 rfl⟩

theorem Add_while_processing_requeues_once_witness :
    (1 ≤ 2) ∧
    (specWorkqueue exampleRateLimiter).ops.Get
      (QueueOp.run (specWorkqueue exampleRateLimiter).ops [QueueOp.add (Item.str "ns/baz")]
        (specWorkqueue exampleRateLimiter).NewRateLimitingQueue) =
      some ((Item.str "ns/baz", false), exampleProcessingState) ∧
    ((specWorkqueue exampleRateLimiter).ops.Done (Item.str "ns/baz")
      (((specWorkqueue exampleRateLimiter).ops.Add (Item.str "ns/baz"))^[2]
        exampleProcessingState)).queued = exampleProcessingState.queued ++ [Item.str "ns/baz"] :=
  ⟨by decide, rfl,
    (Add_while_processing_requeues_once exampleRateLimiter [QueueOp.add (Item.str "ns/baz")]
      (Item.str "ns/baz") exampleProcessingState 2 (by decide) rfl).2.2.1⟩

theorem Forget_resets_backoff_witness :
    exampleRateLimiter.baseRetryDelay ≤ exampleRateLimiter.maxRetryDelay ∧
    ((specWorkqueue exampleRateLimiter).ops.AddRateLimited (Item.str "ns/bar")
        ((specWorkqueue exampleRateLimiter).ops.Forget (Item.str "ns/bar")
          (((specWorkqueue exampleRateLimiter).ops.AddRateLimited (Item.str "ns/bar"))^[2]
            WorkQueueState.empty))).scheduled =
      (((specWorkqueue exampleRateLimiter).ops.AddRateLimited (Item.str "ns/bar"))^[2]
        WorkQueueState.empty).scheduled ++ [(Item.str "ns/bar", 5)] :=
  ⟨by decide,
    (Forget_resets_backoff exampleRateLimiter (by decide) WorkQueueState.empty
      (Item.str "ns/bar") 2).1⟩

theorem processNextItem_false_only_on_shutdown_witness :
    exampleSpecController.queue.Get WorkQueueState.empty.ShutDown =
      some ((Item.nil, true), WorkQueueState.empty.ShutDown) ∧
    (exampleSpecController.processNextItem exampleCache WorkQueueState.empty.ShutDown).outcome =
      .returned false ∧
    (exampleSpecController.processNextItem exampleCache WorkQueueState.empty.ShutDown).events =
      [Event.queueGet] ∧
    exampleController.queue.Get [Item.str "ns/err"] = some ((Item.str "ns/err", false), []) ∧
    (exampleController.processNextItem exampleCache [Item.str "ns/err"]).outcome =
      .returned true :=
  ⟨rfl,
    (processNextItem_false_only_on_shutdown exampleCache exampleSpecController
      WorkQueueState.empty.ShutDown).1.mpr ⟨Item.nil, WorkQueueState.empty.ShutDown, rfl⟩,
    ((processNextItem_false_only_on_shutdown exampleCache exampleSpecController
      WorkQueueState.empty.ShutDown).2.1 Item.nil WorkQueueState.empty.ShutDown rfl).1,
    rfl,
    (processNextItem_false_only_on_shutdown exampleCache exampleController
      [Item.str "ns/err"]).2.2.1 "ns/err" [] (some "index unavailable") rfl rfl⟩

theorem Run_shuts_down_once_at_end_witness :
    (exampleController.Run 1 ⟨some true, true⟩ []).outcome = .returned () ∧
    (exampleController.Run 1 ⟨some true, true⟩ []).events.count Event.queueShutDown = 1 ∧
    (exampleController.Run 1 ⟨some false, true⟩ []).events =
      [Event.goInformerRun, Event.waitForCacheSync false, Event.queueShutDown] :=
  ⟨(Run_shuts_down_once_at_end exampleController 1 ⟨some true, true⟩ []).2.1.mpr
      (Or.inr ⟨rfl, rfl⟩),
    ((Run_shuts_down_once_at_end exampleController 1 ⟨some true, true⟩ []).1
      ((Run_shuts_down_once_at_end exampleController 1 ⟨some true, true⟩ []).2.1.mpr
        (Or.inr ⟨rfl, rfl⟩))).1,
    (Run_shuts_down_once_at_end exampleController 1 ⟨some false, true⟩ []).2.2.1 rfl⟩

theorem main_never_reaches_Run_witness :
    exampleBootstrap.BuildConfigFromFlags = .ok ⟨0⟩ ∧
    exampleBootstrap.NewForConfig ⟨0⟩ = .ok ⟨0⟩ ∧
    main exampleWorkqueue exampleCache exampleBootstrap =
      (Exit.panic, [MainEvent.callNewController]) :=
  ⟨rfl, rfl,
    (main_never_reaches_Run exampleWorkqueue exampleCache exampleBootstrap).2.2.2.2
      ⟨0⟩ ⟨0⟩ rfl rfl⟩

end K8sController
